import Mathlib

/-!
Shallow embedding of the kflow workflow engine (github.com/kangyujian/kflow),
package `engine`: configuration model, parsing/inheritance (config.go),
layer dispatch and retry (layer.go), error types (errors.go) and the
execution engine (engine.go).  Durations (Go `time.Duration`, int64
nanoseconds) are modelled as `Int`; Go `float64` backoff factors are
modelled exactly over `ℚ`; Go `map` values are modelled as association
lists with map (upsert) semantics.  Wall-clock timestamps and logging are
not modelled; they do not influence any control flow in the source.
-/

namespace KFlow

/-- Execution mode, source `type ExecutionMode string` (layer.go). -/
abbrev ExecutionMode := String

/-- `SerialMode` constant (layer.go). -/
def SerialMode : ExecutionMode := "serial"

/-- `ParallelMode` constant (layer.go). -/
def ParallelMode : ExecutionMode := "parallel"

/-- `AsyncMode` constant (layer.go). -/
def AsyncMode : ExecutionMode := "async"

/-- JSON-ish values appearing in `map[string]interface{}` config maps. -/
inductive JValue where
  | str (s : String)
  | num (q : ℚ)
  | boolean (b : Bool)
  | null
deriving DecidableEq

/-- `RetryConfig` (component.go): MaxRetries `int`, Delay `time.Duration`
(int64 ns), Backoff `float64` (modelled over `ℚ`). -/
structure RetryConfig where
  maxRetries : Int
  delay : Int
  backoff : ℚ
deriving DecidableEq

/-- `ComponentConfig` (component.go), plus the merge-only `remove` marker
used by `mergeConfigs` (config.go). -/
structure ComponentConfig where
  name : String
  type : String
  config : Option (List (String × JValue))
  dependencies : List String
  timeout : Int
  retry : Option RetryConfig
  critical : Bool
  enabled : Bool
  remove : Bool
deriving DecidableEq

/-- `LayerConfig` (layer.go). -/
structure LayerConfig where
  name : String
  mode : ExecutionMode
  components : List ComponentConfig
  timeout : Int
  dependencies : List String
  enabled : Bool
  parallel : Int
  remove : Bool
deriving DecidableEq

/-- `Config` (config.go). `extendsRef` models the `Extends` field
(`extends` in JSON); renamed because `extends` is reserved in Lean. -/
structure Config where
  name : String
  version : String
  description : String
  layers : List LayerConfig
  global : Option (List (String × JValue))
  timeout : Int
  metadata : Option (List (String × String))
  extendsRef : String
deriving DecidableEq

/-- The error types of errors.go folded into one inductive.  Field order
follows the Go struct fields that the source actually sets; the
`Timestamp` field of `ExecutionError` (wall clock) is not modelled.
`ctxCanceled` stands for the `error` returned by `ctx.Err()`. -/
inductive GoError where
  | baseError (msg : String)
  | componentError (type msg component layer : String) (cause : Option GoError)
  | configError (type msg field : String)
  | executionError (type msg component layer : String) (cause : Option GoError)
  | retryExhaustedError (component : String) (maxRetries : Int)
      (lastError : Option GoError) (retryErrors : List GoError)
  | criticalComponentError (component layer : String) (cause : GoError)
  | validationError (field value msg : String)
  | ctxCanceled

/-- The `Error()` renderings from errors.go (only the recursive cases of
`RetryExhaustedError` and `CriticalComponentError` descend into causes,
matching the `%v` verbs in the source format strings). -/
def GoError.errorString : GoError → String
  | .baseError msg => msg
  | .componentError _ msg comp _ _ =>
      if comp ≠ "" then "component error in " ++ comp ++ ": " ++ msg
      else "component error: " ++ msg
  | .configError _ msg field =>
      if field ≠ "" then "config error in field " ++ field ++ ": " ++ msg
      else "config error: " ++ msg
  | .executionError _ msg comp layer _ =>
      if comp ≠ "" && layer ≠ "" then
        "execution error in layer " ++ layer ++ ", component " ++ comp ++ ": " ++ msg
      else if comp ≠ "" then "execution error in component " ++ comp ++ ": " ++ msg
      else "execution error: " ++ msg
  | .retryExhaustedError comp maxR (some lastE) _ =>
      "retry exhausted for component " ++ comp ++ " after " ++ toString maxR ++
        " attempts: " ++ lastE.errorString
  | .retryExhaustedError comp maxR none _ =>
      "retry exhausted for component " ++ comp ++ " after " ++ toString maxR ++
        " attempts: <nil>"
  | .criticalComponentError comp layer cause =>
      "critical component " ++ comp ++ " failed in layer " ++ layer ++ ": " ++
        cause.errorString
  | .validationError field _ msg =>
      "validation error for field " ++ field ++ ": " ++ msg
  | .ctxCanceled => "context canceled"

/-- The type assertion `err.(*CriticalComponentError)` used by
`executeParallel` (layer.go) and `Engine.Execute` (engine.go). -/
def GoError.isCritical : GoError → Bool
  | .criticalComponentError _ _ _ => true
  | _ => false

/-! ## validateConfig (config.go) -/

/-- Membership of a mode in the `validModes` sets of `validateLayerConfig`
and `Layer.Validate`. -/
def isValidMode (m : ExecutionMode) : Bool :=
  m = SerialMode || m = ParallelMode || m = AsyncMode

/-- The per-component checks of the loop in `validateLayerConfig`
(config.go lines 349-377): empty name, duplicate name in layer, empty
type.  `seen` is the `componentNames` set, `j` the loop index. -/
def validateComponentsLoop (index : Nat) :
    List ComponentConfig → List String → Nat → Option GoError
  | [], _, _ => none
  | c :: rest, seen, j =>
      if c.name = "" then
        some (.validationError
          ("layers[" ++ toString index ++ "].components[" ++ toString j ++ "].name")
          c.name "component name cannot be empty")
      else if seen.contains c.name then
        some (.validationError
          ("layers[" ++ toString index ++ "].components[" ++ toString j ++ "].name")
          c.name ("duplicate component name in layer: " ++ c.name))
      else if c.type = "" then
        some (.validationError
          ("layers[" ++ toString index ++ "].components[" ++ toString j ++ "].type")
          c.type "component type cannot be empty")
      else validateComponentsLoop index rest (c.name :: seen) (j + 1)

/-- `validateLayerConfig` (config.go).  The source assigns
`layer.Mode = SerialMode` on a range copy when the mode is empty, so an
empty mode passes the mode check without mutating the config. -/
def validateLayerConfig (layer : LayerConfig) (index : Nat) : Option GoError :=
  let mode := if layer.mode = "" then SerialMode else layer.mode
  if ¬ isValidMode mode then
    some (.validationError ("layers[" ++ toString index ++ "].mode") mode
      ("invalid execution mode: " ++ mode))
  else if layer.components = [] then
    some (.validationError ("layers[" ++ toString index ++ "].components") ""
      "layer must have at least one component")
  else validateComponentsLoop index layer.components [] 0

/-- The per-layer loop of `validateConfig` (config.go lines 286-309):
empty layer name, duplicate layer name, then `validateLayerConfig`. -/
def validateLayersLoop : List LayerConfig → List String → Nat → Option GoError
  | [], _, _ => none
  | l :: rest, seen, i =>
      if l.name = "" then
        some (.validationError ("layers[" ++ toString i ++ "].name") l.name
          "layer name cannot be empty")
      else if seen.contains l.name then
        some (.validationError ("layers[" ++ toString i ++ "].name") l.name
          ("duplicate layer name: " ++ l.name))
      else
        match validateLayerConfig l i with
        | some e => some e
        | none => validateLayersLoop rest (l.name :: seen) (i + 1)

/-- The structural portion of `validateConfig` (config.go): everything
before the call to `validateLayerDependencies`. -/
def validateConfigStructure (c : Config) : Option GoError :=
  if c.name = "" then
    some (.validationError "name" c.name "config name cannot be empty")
  else if c.layers = [] then
    some (.validationError "layers" "" "at least one layer must be defined")
  else validateLayersLoop c.layers [] 0

/-- The `layerMap` of `validateLayerDependencies`: a Go map built by a
forward loop, so on duplicate names the last index wins. -/
def lastLayerIdxOf (layers : List LayerConfig) (n : String) : Option Nat :=
  (layers.enum.filter (fun p => p.2.name = n)).getLast?.map (·.1)

/-- Inner dependency loop of `validateLayerDependencies`: a dependency
must exist in the map and its index must be strictly before `i`. -/
def depsCheck (idx : String → Option Nat) (i : Nat) : List String → Option GoError
  | [] => none
  | dep :: rest =>
      match idx dep with
      | none =>
          some (.validationError ("layers[" ++ toString i ++ "].dependencies") dep
            ("dependency layer not found: " ++ dep))
      | some depIndex =>
          if depIndex ≥ i then
            some (.validationError ("layers[" ++ toString i ++ "].dependencies") dep
              ("circular or forward dependency detected: " ++ dep))
          else depsCheck idx i rest

/-- Outer loop of `validateLayerDependencies` over layers with index. -/
def depsLoop (idx : String → Option Nat) : List LayerConfig → Nat → Option GoError
  | [], _ => none
  | l :: rest, i =>
      match depsCheck idx i l.dependencies with
      | some e => some e
      | none => depsLoop idx rest (i + 1)

/-- `validateLayerDependencies` (config.go lines 383-412). -/
def validateLayerDependencies (layers : List LayerConfig) : Option GoError :=
  depsLoop (lastLayerIdxOf layers) layers 0

/-- `validateConfig` (config.go): structural checks then the layer
dependency check. -/
def validateConfig (c : Config) : Option GoError :=
  match validateConfigStructure c with
  | some e => some e
  | none => validateLayerDependencies c.layers

/-! ## setDefaults (config.go) -/

/-- Default component timeout, `30 * time.Second` in nanoseconds. -/
def defaultComponentTimeout : Int := 30 * 1000000000

/-- Component part of `setDefaults` (config.go lines 431-441). -/
def setDefaultsComponent (c : ComponentConfig) : ComponentConfig :=
  let c1 := if c.enabled = false ∧ c.type ≠ "" then { c with enabled := true } else c
  if c1.timeout = 0 then { c1 with timeout := defaultComponentTimeout } else c1

/-- Layer part of `setDefaults` (config.go lines 420-442): the mode
default is applied before the enabled default, so the enabled guard
`layer.Mode != ""` always holds. -/
def setDefaultsLayer (l : LayerConfig) : LayerConfig :=
  let l1 := if l.mode = "" then { l with mode := SerialMode } else l
  let l2 := if l1.enabled = false ∧ l1.mode ≠ "" then { l1 with enabled := true } else l1
  { l2 with components := l2.components.map setDefaultsComponent }

/-- `setDefaults` (config.go).  The source mutates in place; modelled as
a pure transformer. -/
def setDefaults (c : Config) : Config :=
  let c1 := if c.version = "" then { c with version := "1.0.0" } else c
  { c1 with layers := c1.layers.map setDefaultsLayer }

/-! ## mergeConfigs and Clone (config.go) -/

/-- Go map assignment `m[k] = v` over an association-list model:
overwrite the existing binding, otherwise append. -/
def upsert {α : Type} (m : List (String × α)) (k : String) (v : α) :
    List (String × α) :=
  match m with
  | [] => [(k, v)]
  | (k2, v2) :: rest => if k2 = k then (k, v) :: rest else (k2, v2) :: upsert rest k v

/-- Key-wise map merge `for k, v := range child { base[k] = v }`. -/
def mapMerge {α : Type} (base child : List (String × α)) : List (String × α) :=
  child.foldl (fun m kv => upsert m kv.1 kv.2) base

/-- The `compIdx` Go map of `mergeConfigs`: built by a forward loop, so
the last index wins on duplicate names. -/
def lastCompIdxOf (comps : List ComponentConfig) (n : String) : Option Nat :=
  (comps.enum.filter (fun p => p.2.name = n)).getLast?.map (·.1)

/-- Component patch branch of `mergeConfigs` (config.go lines 206-226):
child fields override only when non-empty / non-zero / explicitly true;
config maps merge key-wise; retry is replaced wholesale when supplied. -/
def patchComponent (bc cc : ComponentConfig) : ComponentConfig :=
  { bc with
    type := if cc.type ≠ "" then cc.type else bc.type
    timeout := if cc.timeout > 0 then cc.timeout else bc.timeout
    enabled := if cc.enabled then true else bc.enabled
    critical := if cc.critical then true else bc.critical
    dependencies := if cc.dependencies ≠ [] then cc.dependencies else bc.dependencies
    config :=
      match cc.config with
      | none => bc.config
      | some ccfg => some (mapMerge (bc.config.getD []) ccfg)
    retry :=
      match cc.retry with
      | some r => some r
      | none => bc.retry }

/-- One step of the component merge loop of `mergeConfigs` (config.go
lines 196-231): remove / patch / append, matched by name.  The rebuilt
`compIdx` map always equals `lastCompIdxOf` of the current list. -/
def mergeComponentsStep (comps : List ComponentConfig) (cc : ComponentConfig) :
    List ComponentConfig :=
  if cc.remove then
    match lastCompIdxOf comps cc.name with
    | some i => comps.eraseIdx i
    | none => comps
  else
    match lastCompIdxOf comps cc.name with
    | some i =>
        match comps.get? i with
        | some bc => comps.set i (patchComponent bc cc)
        | none => comps
    | none => comps ++ [cc]

/-- Layer patch branch of `mergeConfigs` (config.go lines 181-232). -/
def patchLayer (bl cl : LayerConfig) : LayerConfig :=
  { bl with
    mode := if cl.mode ≠ "" then cl.mode else bl.mode
    timeout := if cl.timeout > 0 then cl.timeout else bl.timeout
    enabled := if cl.enabled then true else bl.enabled
    parallel := if cl.parallel > 0 then cl.parallel else bl.parallel
    dependencies := if cl.dependencies ≠ [] then cl.dependencies else bl.dependencies
    components := cl.components.foldl mergeComponentsStep bl.components }

/-- One step of the layer merge loop of `mergeConfigs` (config.go lines
166-238): remove / patch / append, matched by name via the `layerIdx`
map (last index wins, rebuilt on removal). -/
def mergeLayersStep (base : List LayerConfig) (cl : LayerConfig) :
    List LayerConfig :=
  if cl.remove then
    match lastLayerIdxOf base cl.name with
    | some i => base.eraseIdx i
    | none => base
  else
    match lastLayerIdxOf base cl.name with
    | some i =>
        match base.get? i with
        | some bl => base.set i (patchLayer bl cl)
        | none => base
    | none => base ++ [cl]

/-- The pure field-merge portion of `mergeConfigs` applied to the cloned
base (config.go lines 131-238). -/
def mergePatch (base child : Config) : Config :=
  { base with
    name := if child.name ≠ "" then child.name else base.name
    description := if child.description ≠ "" then child.description else base.description
    version := if child.version ≠ "" then child.version else base.version
    timeout := if child.timeout > 0 then child.timeout else base.timeout
    global :=
      match child.global with
      | none => base.global
      | some g => some (mapMerge (base.global.getD []) g)
    metadata :=
      match child.metadata with
      | none => base.metadata
      | some m => some (mapMerge (base.metadata.getD []) m)
    layers := child.layers.foldl mergeLayersStep base.layers }

/-- `Config.Clone` (config.go lines 484-492): a `ToJSON` /
`NewConfigParser().ParseBytes` round trip, i.e. re-validation followed by
`setDefaults` on a structurally identical copy.  Modelled for configs
whose `extends` reference is empty (the only case the merge path can
reach: every config produced by parsing has an empty `extends`); the
environment re-interpolation over the marshalled text is not modelled
(it is the identity whenever the serialized text contains no
`${...}` placeholder). -/
def cloneConfig (c : Config) : Except GoError Config :=
  match validateConfig c with
  | some e => .error e
  | none => .ok (setDefaults c)

/-- `mergeConfigs` (config.go lines 124-241): clone the parent, then
patch the clone with the child's overrides. -/
def mergeConfigs (parent child : Config) : Except GoError Config :=
  match cloneConfig parent with
  | .error e => .error e
  | .ok base => .ok (mergePatch base child)

/-- A merge run observed together with the parent object the procedure
leaves behind.  In the source every assignment inside `mergeConfigs`
targets the clone `base` or locals; the parent is only read (through
`parent.Clone()`), so the resulting parent is the input parent. -/
def mergeRun (parent child : Config) : Except GoError Config × Config :=
  (mergeConfigs parent child, parent)

/-! ## ParseBytes / ParseFile with extends resolution (config.go) -/

/-- Parser state: the `visitedExtends` map of `ConfigParser`.  It is
created once in `NewConfigParser` and the source never clears it. -/
structure ParserState where
  visited : List String
deriving DecidableEq

/-- `NewConfigParser` (config.go lines 33-38): fresh empty visited set. -/
def newParserState : ParserState := ⟨[]⟩

/-- `ParseBytes` (config.go lines 70-121) composed with `ParseFile` for
the recursive `extends` resolution, over a modelled filesystem
`fs : String → Option Config` mapping a path to its decoded document
(`none` models an unreadable file).  Environment interpolation and JSON
decoding are outside the model: `fs` yields already-decoded configs.
`fuel` bounds the recursion depth; all theorems use enough fuel for
their inputs.  The parser state threads through exactly as the mutable
`visitedExtends` map does in the source: the reference is recorded
before the parent file is loaded. -/
def parseBytesAux (fs : String → Option Config) (fuel : Nat) (st : ParserState)
    (cfg : Config) : Except GoError (Config × ParserState) :=
    if cfg.extendsRef ≠ "" then
      if st.visited.contains cfg.extendsRef then
        .error (.configError "extends_cycle_detected"
          ("circular extends detected: " ++ cfg.extendsRef) "")
      else
        match fuel with
        | 0 => .error (.configError "recursion_fuel_exhausted" "model fuel exhausted" "")
        | fuel' + 1 =>
          match fs cfg.extendsRef with
          | none =>
              .error (.configError "file_open_failed"
                ("failed to open config file: " ++ cfg.extendsRef) "")
          | some parentDoc =>
            match parseBytesAux fs fuel' ⟨cfg.extendsRef :: st.visited⟩ parentDoc with
            | .error e => .error e
            | .ok (parent, st2) =>
              match mergeConfigs parent cfg with
              | .error e => .error e
              | .ok merged =>
                match validateConfig merged with
                | some e => .error e
                | none => .ok (setDefaults merged, st2)
    else
      match validateConfig cfg with
      | some e => .error e
      | none => .ok (setDefaults cfg, st)

/-- `ParseFile` (config.go lines 41-53): open the file, then parse its
bytes with the same parser instance. -/
def parseFileAux (fs : String → Option Config) (fuel : Nat) (st : ParserState)
    (filename : String) : Except GoError (Config × ParserState) :=
  match fs filename with
  | none =>
      .error (.configError "file_open_failed"
        ("failed to open config file: " ++ filename) "")
  | some cfg => parseBytesAux fs fuel st cfg

/-! ## Runtime components and layer dispatch (layer.go) -/

/-- The `RetryableComponent` capability (component.go): `ShouldRetry`
plus `GetRetryConfig`. -/
structure RetryCap where
  shouldRetry : GoError → Bool
  retryConfig : RetryConfig

/-- A runtime `Component` instance together with its optional
capabilities, discovered in the source by type assertions.  `exec n` is
the outcome of the n-th call to `Execute` within one dispatch (`none` =
nil error); component bodies are opaque to the engine, so their
behaviour is a parameter of the model.  `initResult = some r` models a
component implementing `InitializableComponent` whose `Initialize`
returns `r`; `cleanupResult` likewise for `CleanupComponent` (its result
is only logged by the source and affects nothing). -/
structure Comp where
  name : String
  exec : Nat → Option GoError
  initResult : Option (Option GoError)
  cleanupResult : Option (Option GoError)
  retryCap : Option RetryCap

/-- Observable outcome of one component dispatch: the returned error,
the number of `Execute` invocations performed, and the sequence of
back-off sleeps (in nanoseconds, exact rational arithmetic in place of
the source's float64) in the order they were performed. -/
structure CompRunTrace where
  result : Option GoError
  invocations : Nat
  sleeps : List ℚ

/-- The loop body of `executeWithRetry` (layer.go lines 256-279),
structurally recursing on the remaining iteration count: the Go loop
`for attempt := 0; attempt <= MaxRetries; attempt++` runs while
`remaining > 0` where `attempt + remaining = (MaxRetries+1).toNat`.
Before every attempt except the first, the loop sleeps for
`Delay * (Backoff * (attempt-1))`, aborting with `ctx.Err()` when the
context is cancelled (`ctxCancelled`); each failed attempt is
appended to `retryErrors`, and a `ShouldRetry = false` verdict breaks
out of the loop to the `RetryExhaustedError` return. -/
def retryGo (c : Comp) (cap : RetryCap) (ctxCancelled : Bool) :
    Nat → Nat → Option GoError → List GoError → CompRunTrace
  | _, 0, lastErr, retryErrors =>
      ⟨some (.retryExhaustedError c.name cap.retryConfig.maxRetries lastErr retryErrors),
        0, []⟩
  | attempt, remaining + 1, _lastErr, retryErrors =>
      if attempt > 0 ∧ ctxCancelled then ⟨some .ctxCanceled, 0, []⟩
      else
        let sleeps : List ℚ :=
          if attempt > 0 then
            [(cap.retryConfig.delay : ℚ) * (cap.retryConfig.backoff * ((attempt : ℚ) - 1))]
          else []
        match c.exec attempt with
        | none => ⟨none, 1, sleeps⟩
        | some err =>
          if cap.shouldRetry err then
            let t := retryGo c cap ctxCancelled (attempt + 1) remaining (some err)
              (retryErrors ++ [err])
            ⟨t.result, t.invocations + 1, sleeps ++ t.sleeps⟩
          else
            ⟨some (.retryExhaustedError c.name cap.retryConfig.maxRetries (some err)
              (retryErrors ++ [err])), 1, sleeps⟩

/-- `executeWithRetry` (layer.go lines 251-287). -/
def executeWithRetry (c : Comp) (cap : RetryCap) (ctxCancelled : Bool) :
    CompRunTrace :=
  retryGo c cap ctxCancelled 0 (cap.retryConfig.maxRetries + 1).toNat none []

/-- `Layer.isCriticalComponent` (layer.go lines 290-297): look up the
static `critical` flag in the layer's component specs by name. -/
def isCriticalComponent (lc : LayerConfig) (componentName : String) : Bool :=
  match lc.components.find? (fun cfg => cfg.name = componentName) with
  | some cfg => cfg.critical
  | none => false

/-- `Layer.executeComponent` (layer.go lines 194-249): optional
`Initialize` first (its failure short-circuits with a `ComponentError`);
the main call goes through `executeWithRetry` iff the component exposes
the retry capability, otherwise `Execute` runs exactly once; a failure
is wrapped as `CriticalComponentError` or `ExecutionError` according to
the static critical flag.  The deferred `Cleanup` result is only logged
by the source. -/
def executeComponent (lc : LayerConfig) (c : Comp) (ctxCancelled : Bool) :
    CompRunTrace :=
  match c.initResult with
  | some (some e) =>
      ⟨some (.componentError "initialization_failed"
        ("component initialization failed: " ++ e.errorString) c.name lc.name (some e)),
        0, []⟩
  | _ =>
    let t : CompRunTrace :=
      match c.retryCap with
      | some cap => executeWithRetry c cap ctxCancelled
      | none => ⟨c.exec 0, 1, []⟩
    match t.result with
    | none => ⟨none, t.invocations, t.sleeps⟩
    | some err =>
      if isCriticalComponent lc c.name then
        ⟨some (.criticalComponentError c.name lc.name err), t.invocations, t.sleeps⟩
      else
        ⟨some (.executionError "component_execution_failed"
          ("component execution failed: " ++ err.errorString) c.name lc.name (some err)),
          t.invocations, t.sleeps⟩

/-- `Layer.executeSerial` (layer.go lines 115-122), instrumented with
the list of component names whose dispatch was started, in order. -/
def executeSerial (lc : LayerConfig) (ctxCancelled : Bool) :
    List Comp → Option GoError × List String
  | [] => (none, [])
  | c :: rest =>
      match (executeComponent lc c ctxCancelled).result with
      | some e => (some e, [c.name])
      | none =>
          let (r, started) := executeSerial lc ctxCancelled rest
          (r, c.name :: started)

/-- The error-collection loop of `executeParallel` (layer.go lines
159-177): drain the queue appending each error to `errors`, returning a
`CriticalComponentError` the moment one is drained; otherwise aggregate
a non-empty collection into an `ExecutionError` reporting the count,
with the first collected error as cause. -/
def drainLoop (layerName : String) (acc : List GoError) :
    List GoError → Option GoError
  | [] =>
      if acc.length > 0 then
        some (.executionError "parallel_execution_failed"
          ("parallel execution failed with " ++ toString acc.length ++ " errors")
          "" layerName acc.head?)
      else none
  | e :: rest =>
      if e.isCritical then some e
      else drainLoop layerName (acc ++ [e]) rest

/-- `Layer.executeParallel` (layer.go lines 125-180) for one admissible
schedule: `arrival` is the order in which the per-component goroutines
deliver into the error channel (a permutation of the layer's
components).  Every component runs to completion regardless of the
others; only failures are pushed onto the channel. -/
def executeParallel (lc : LayerConfig) (ctxCancelled : Bool)
    (arrival : List Comp) : Option GoError :=
  drainLoop lc.name []
    (arrival.filterMap (fun c => (executeComponent lc c ctxCancelled).result))

/-- `Layer.executeAsync` (layer.go lines 183-191): fire-and-forget,
always returns nil. -/
def executeAsync (_lc : LayerConfig) (_ctxCancelled : Bool)
    (_comps : List Comp) : Option GoError :=
  none

/-- A runtime `Layer`: its config plus the component instances created
by `NewLayer` (enabled specs only). -/
structure LayerModel where
  config : LayerConfig
  comps : List Comp

/-- `Layer.Execute` (layer.go lines 86-112): disabled layers return nil;
otherwise dispatch per mode (using declared order as the parallel
arrival schedule), with an `invalid_execution_mode` `ConfigError` for an
unknown mode.  The per-layer timeout derivation only tightens the
context deadline and is not modelled beyond the `ctxCancelled` flag. -/
def LayerModel.executeL (l : LayerModel) (ctxCancelled : Bool) : Option GoError :=
  if ¬ l.config.enabled then none
  else if l.config.mode = SerialMode then
    (executeSerial l.config ctxCancelled l.comps).1
  else if l.config.mode = ParallelMode then
    executeParallel l.config ctxCancelled l.comps
  else if l.config.mode = AsyncMode then
    executeAsync l.config ctxCancelled l.comps
  else
    some (.configError "invalid_execution_mode"
      ("unsupported execution mode: " ++ l.config.mode) "mode")

/-! ## Engine.Execute (engine.go) -/

/-- The per-layer entry of `ExecutionStats.LayerStats` (the fields the
claims observe). -/
structure LayerStatsM where
  name : String
  componentsTotal : Nat
  success : Bool
  error : Option GoError

/-- Result of `Engine.Execute` as observed by the claims: counters, the
terminal error, the success flag, per-layer stats entries in creation
order, and — instrumentation — the names of the layers whose
`layer.Execute` was actually invoked. -/
structure EngineTrace where
  layersTotal : Nat
  layersSuccess : Nat
  layersFailed : Nat
  layerStats : List LayerStatsM
  error : Option GoError
  success : Bool
  dispatched : List String

/-- The layer loop of `Engine.Execute` (engine.go lines 337-405) with no
middleware registered and the default error handler (which returns nil,
leaving `executionError` as the layer error).  `execErr` is the mutable
`executionError` variable: it is declared outside the loop and never
reset, and `layer.Execute` only runs under `if executionError == nil`.
A `CriticalComponentError` breaks the loop (no stats entries for the
remaining layers); any other error leaves the loop running, but every
later iteration only creates a stats entry without dispatching.  After
each non-broken iteration the context check may overwrite `execErr`
with `ctx.Err()`. -/
def engineLoop (ctxCancelled : Bool) :
    List LayerModel → Option GoError →
    Option GoError × Nat × Nat × List LayerStatsM × List String
  | [], execErr => (execErr, 0, 0, [], [])
  | l :: rest, execErr =>
    match execErr with
    | none =>
        (match l.executeL ctxCancelled with
        | some err =>
            if err.isCritical then
              (some err, 0, 1,
                [⟨l.config.name, l.comps.length, false, some err⟩], [l.config.name])
            else
              let execErr1 := if ctxCancelled then some GoError.ctxCanceled else some err
              let (fe, s, f, sts, ds) := engineLoop ctxCancelled rest execErr1
              (fe, s, f + 1,
                ⟨l.config.name, l.comps.length, false, some err⟩ :: sts,
                l.config.name :: ds)
        | none =>
            let execErr1 := if ctxCancelled then some GoError.ctxCanceled else none
            let (fe, s, f, sts, ds) := engineLoop ctxCancelled rest execErr1
            (fe, s + 1, f,
              ⟨l.config.name, l.comps.length, true, none⟩ :: sts,
              l.config.name :: ds))
    | some _ =>
        let execErr1 := if ctxCancelled then some GoError.ctxCanceled else execErr
        let (fe, s, f, sts, ds) := engineLoop ctxCancelled rest execErr1
        (fe, s, f, ⟨l.config.name, l.comps.length, false, none⟩ :: sts, ds)

/-- `Engine.Execute` (engine.go lines 310-435) with no middleware and
the default error handler: run the layer loop, then finalize the stats
(`Success = executionError == nil`, terminal error = `executionError`). -/
def engineExecute (layers : List LayerModel) (ctxCancelled : Bool) : EngineTrace :=
  let (fe, s, f, sts, ds) := engineLoop ctxCancelled layers none
  ⟨layers.length, s, f, sts, fe, fe.isNone, ds⟩

/-! ## Specification-side helper functions and concrete fixtures -/

/-- The per-attempt error list produced by a component that fails on
every attempt, starting from attempt number `attempt`, over `remaining`
attempts, in attempt order.  Mirrors the `retryErrors` accumulation. -/
def attemptErrs (errF : Nat → GoError) : Nat → Nat → List GoError
  | _, 0 => []
  | attempt, r + 1 => errF attempt :: attemptErrs errF (attempt + 1) r

/-- The back-off sleeps performed over `remaining` always-retrying
attempts starting at attempt number `attempt` (no sleep before attempt
0). -/
def attemptSleeps (delay backoff : ℚ) : Nat → Nat → List ℚ
  | _, 0 => []
  | attempt, r + 1 =>
      (if attempt > 0 then [delay * (backoff * ((attempt : ℚ) - 1))] else []) ++
        attemptSleeps delay backoff (attempt + 1) r

/-- The `lastErr` value held when the retry loop exhausts after
`remaining` further always-failing attempts starting at `attempt`. -/
def lastFailErr (errF : Nat → GoError) : Nat → Option GoError → Nat → Option GoError
  | _, lastErr, 0 => lastErr
  | attempt, _, r + 1 => lastFailErr errF (attempt + 1) (some (errF attempt)) r

/-- The back-off delay formula of `executeWithRetry` as a function of
the attempt number. -/
def backoffDelay (cap : RetryCap) (a : ℚ) : ℚ :=
  (cap.retryConfig.delay : ℚ) * (cap.retryConfig.backoff * (a - 1))

/-- A plain component with a fixed per-invocation outcome and no
optional capabilities (fixture for concrete witnesses). -/
def mkComp (name : String) (res : Option GoError) : Comp :=
  ⟨name, fun _ => res, none, none, none⟩

/-- An always-retrying policy with 2 retries, delay 1000ns, backoff 3
(fixture for concrete witnesses). -/
def alwaysRetryCap : RetryCap :=
  ⟨fun _ => true, ⟨2, 1000, 3⟩⟩

/-- An always-failing component (fixture for concrete witnesses). -/
def failComp : Comp :=
  ⟨"worker", fun _ => some (.baseError "boom"), none, none, some alwaysRetryCap⟩

/-- The `Component` identifier carried by an error wrapper, when the
error type has one. -/
def GoError.componentField : GoError → Option String
  | .componentError _ _ comp _ _ => some comp
  | .executionError _ _ comp _ _ => some comp
  | .criticalComponentError comp _ _ => some comp
  | .retryExhaustedError comp _ _ _ => some comp
  | _ => none

/-- The `Layer` identifier carried by an error wrapper, when the error
type has one. -/
def GoError.layerField : GoError → Option String
  | .componentError _ _ _ layer _ => some layer
  | .executionError _ _ _ layer _ => some layer
  | .criticalComponentError _ layer _ => some layer
  | _ => none

/-- A minimal component spec of the given name (non-critical, enabled;
fixture for concrete witnesses). -/
def ccOf (n : String) : ComponentConfig :=
  ⟨n, "T", none, [], 0, none, false, true, false⟩

/-- A serial layer `[A, B, C]` whose specs are all non-critical
(fixture for concrete witnesses). -/
def serialLayerCfg : LayerConfig :=
  ⟨"L", SerialMode, [ccOf "A", ccOf "B", ccOf "C"], 0, [], true, 0, false⟩

/-- A critical component spec (fixture for concrete witnesses). -/
def critCC : ComponentConfig :=
  ⟨"crit", "T", none, [], 0, none, true, true, false⟩

/-- A parallel layer with one critical and one non-critical spec
(fixture for concrete witnesses). -/
def parLayerCfg : LayerConfig :=
  ⟨"P", ParallelMode, [critCC, ccOf "nc"], 0, [], true, 0, false⟩

/-- Rewrite the `Retry` field of every component spec of a layer
(used to show the dispatcher never reads it). -/
def setRetryInConfigs (f : Option RetryConfig → Option RetryConfig)
    (lc : LayerConfig) : LayerConfig :=
  { lc with components := lc.components.map (fun cc => { cc with retry := f cc.retry }) }

/-- A two-layer config whose second layer depends on the first
(fixture: dependency validation succeeds). -/
def cGood : Config :=
  ⟨"w", "", "", [⟨"L1", "serial", [ccOf "C1"], 0, [], true, 0, false⟩,
    ⟨"L2", "serial", [ccOf "C2"], 0, ["L1"], true, 0, false⟩], none, 0, none, ""⟩

/-- A two-layer config whose second layer depends on itself
(fixture: dependency validation fails). -/
def cBad : Config :=
  ⟨"w", "", "", [⟨"L1", "serial", [ccOf "C1"], 0, [], true, 0, false⟩,
    ⟨"L2", "serial", [ccOf "C2"], 0, ["L2"], true, 0, false⟩], none, 0, none, ""⟩

/-- A child document extending the parent file "p"
(fixture for the extends visited-set claim). -/
def childA : Config := ⟨"childA", "", "", [], none, 0, none, "p"⟩

/-- A second, independent child document also extending "p"
(fixture for the extends visited-set claim). -/
def childB : Config := ⟨"childB", "", "", [], none, 0, none, "p"⟩

/-- A modelled filesystem with one shared parent and two independent
children extending it. -/
def fsDemo : String → Option Config := fun s =>
  if s = "p" then some cGood
  else if s = "c1" then some childA
  else if s = "c2" then some childB
  else none

/-- A serial layer whose only component fails non-critically
(fixture for the engine claim). -/
def layerM1 : LayerModel :=
  ⟨⟨"L1", SerialMode, [ccOf "X"], 0, [], true, 0, false⟩,
    [mkComp "X" (some (.baseError "xboom"))]⟩

/-- A serial layer whose only component succeeds
(fixture for the engine claim). -/
def layerM2 : LayerModel :=
  ⟨⟨"L2", SerialMode, [ccOf "Y"], 0, [], true, 0, false⟩, [mkComp "Y" none]⟩

/-! ## Helper lemmas: the retry loop -/

theorem attemptErrs_eq_range'_map (errF : Nat → GoError) :
    ∀ r attempt, attemptErrs errF attempt r = (List.range' attempt r).map errF := by
  intro r
  induction r with
  | zero => intro attempt; simp [attemptErrs]
  | succ n ih => intro attempt; simp [attemptErrs, List.range'_succ, ih]

theorem lastFailErr_succ (errF : Nat → GoError) :
    ∀ r attempt lastErr,
      lastFailErr errF attempt lastErr (r + 1) = some (errF (attempt + r)) := by
  intro r
  induction r with
  | zero => intro attempt lastErr; simp [lastFailErr]
  | succ n ih =>
      intro attempt lastErr
      show lastFailErr errF (attempt + 1) (some (errF attempt)) (n + 1) = _
      rw [ih]
      congr 2
      omega

/-- With a never-cancelled context, a component failing on every attempt
and a predicate that always allows retrying, `retryGo` uses all
remaining attempts: it performs exactly `remaining` invocations and ends
in a `RetryExhaustedError` carrying the last attempt's error and the
accumulated per-attempt error list in attempt order. -/
theorem retryGo_always_fail (c : Comp) (cap : RetryCap) (errF : Nat → GoError)
    (hexec : ∀ n, c.exec n = some (errF n))
    (hretry : ∀ e, cap.shouldRetry e = true) :
    ∀ (remaining attempt : Nat) (lastErr : Option GoError) (retryErrors : List GoError),
      retryGo c cap false attempt remaining lastErr retryErrors =
        ⟨some (.retryExhaustedError c.name cap.retryConfig.maxRetries
            (lastFailErr errF attempt lastErr remaining)
            (retryErrors ++ attemptErrs errF attempt remaining)),
          remaining,
          attemptSleeps (cap.retryConfig.delay : ℚ) cap.retryConfig.backoff
            attempt remaining⟩ := by
  intro remaining
  induction remaining with
  | zero =>
      intro attempt lastErr retryErrors
      simp [retryGo, lastFailErr, attemptErrs, attemptSleeps]
  | succ r ih =>
      intro attempt lastErr retryErrors
      simp only [retryGo, hexec attempt, hretry,
        ih (attempt + 1) (some (errF attempt)) (retryErrors ++ [errF attempt]),
        lastFailErr, attemptErrs, attemptSleeps, List.append_assoc,
        List.singleton_append]
      simp

/-- For every attempt sequence starting at attempt number `attempt ≥ 1`
with a never-cancelled context: the loop performs at most `remaining`
invocations and the recorded sleeps are exactly the back-off delays of
attempts `attempt, attempt+1, ...`, one per invocation. -/
theorem retryGo_sleeps_spec (c : Comp) (cap : RetryCap) :
    ∀ (remaining attempt : Nat) (lastErr : Option GoError)
      (retryErrors : List GoError), 1 ≤ attempt →
      (retryGo c cap false attempt remaining lastErr retryErrors).invocations ≤ remaining ∧
      (retryGo c cap false attempt remaining lastErr retryErrors).sleeps =
        (List.range' attempt
          (retryGo c cap false attempt remaining lastErr retryErrors).invocations).map
          (fun a : ℕ => backoffDelay cap (a : ℚ)) := by
  intro remaining
  induction remaining with
  | zero =>
      intro attempt lastErr retryErrors _
      simp [retryGo]
  | succ r ih =>
      intro attempt lastErr retryErrors hattempt
      have hpos : attempt > 0 := hattempt
      rw [retryGo]
      rw [if_neg (by simp)]
      rw [if_pos hpos]
      cases hex : c.exec attempt with
      | none =>
          dsimp only
          exact ⟨by omega, by simp [List.range'_succ, backoffDelay]⟩
      | some err =>
          dsimp only
          cases hsr : cap.shouldRetry err with
          | false =>
              simp only [hsr, Bool.false_eq_true, if_false]
              exact ⟨by omega, by simp [List.range'_succ, backoffDelay]⟩
          | true =>
              simp only [hsr, if_true]
              obtain ⟨h1, h2⟩ :=
                ih (attempt + 1) (some err) (retryErrors ++ [err]) (by omega)
              refine ⟨by omega, ?_⟩
              rw [h2]
              simp [List.range'_succ, backoffDelay]

/-- Lookup into a map over `List.range'` with unit step. -/
theorem map_range'_get? {α : Type} (f : ℕ → α) (s n k : ℕ) (d : α)
    (h : ((List.range' s n).map f).get? k = some d) : k < n ∧ d = f (s + k) := by
  rw [List.get?_eq_getElem?, List.getElem?_map] at h
  by_cases hk : k < n
  · rw [List.getElem?_range' s 1 hk] at h
    simp only [Option.map_some', Option.some.injEq, Nat.one_mul] at h
    exact ⟨hk, h.symm⟩
  · have hnone : (List.range' s n)[k]? = none := by
      rw [List.getElem?_eq_none]
      simp only [List.length_range']
      omega
    rw [hnone] at h
    simp at h

/-! ## Claims about the retry algorithm -/

/-- C2: For a retry-capable component with policy
{maxRetries, initialDelay, backoffFactor}, the retry loop makes at most
`1 + maxRetries` invocations of `Execute` (and at least one), the first
attempt is never preceded by a sleep (the number of sleeps is one less
than the number of invocations), the sleep recorded before the k-th
retry (`k = 1, 2, ...`, i.e. 0-based sleep index `k-1`) equals
`initialDelay * backoffFactor * (k-1)`, and in particular the delay
before the first retry is always 0. -/
theorem C2_retry_attempt_bound_and_linear_backoff
    (c : Comp) (cap : RetryCap) (m : Nat)
    (hm : cap.retryConfig.maxRetries = (m : ℤ)) :
    (executeWithRetry c cap false).invocations ≤ 1 + m ∧
    1 ≤ (executeWithRetry c cap false).invocations ∧
    (executeWithRetry c cap false).sleeps.length + 1 =
      (executeWithRetry c cap false).invocations ∧
    (∀ k d, (executeWithRetry c cap false).sleeps.get? k = some d →
      d = (cap.retryConfig.delay : ℚ) * (cap.retryConfig.backoff * (k : ℚ))) ∧
    (∀ d, (executeWithRetry c cap false).sleeps.get? 0 = some d → d = 0) := by
  have htot : (cap.retryConfig.maxRetries + 1).toNat = m + 1 := by
    rw [hm]; omega
  simp only [executeWithRetry, htot]
  rw [retryGo]
  rw [if_neg (by simp)]
  rw [if_neg (by omega)]
  cases hex : c.exec 0 with
  | none =>
      dsimp only
      exact ⟨by omega, by omega, by simp, by simp, by simp⟩
  | some err =>
      dsimp only
      cases hsr : cap.shouldRetry err with
      | false =>
          simp only [hsr, Bool.false_eq_true, if_false]
          exact ⟨by omega, by omega, by simp, by simp, by simp⟩
      | true =>
          simp only [hsr, if_true]
          simp only [Nat.zero_add, List.nil_append]
          obtain ⟨h1, h2⟩ :=
            retryGo_sleeps_spec c cap m 1 (some err) [err] (by omega)
          have hformula : ∀ k d,
              (retryGo c cap false 1 m (some err) [err]).sleeps.get? k = some d →
              d = (cap.retryConfig.delay : ℚ) *
                (cap.retryConfig.backoff * (k : ℚ)) := by
            intro k d hk
            rw [h2] at hk
            obtain ⟨hkn, hd⟩ := map_range'_get? _ 1 _ k d hk
            rw [hd, backoffDelay]
            push_cast
            ring
          refine ⟨by omega, by omega, ?_, hformula,
            fun d hd => by simpa using hformula 0 d hd⟩
          show (retryGo c cap false 1 m (some err) [err]).sleeps.length + 1 = _
          rw [h2]
          simp

/-- C7: a retry-capable component that fails on every attempt with a
predicate that always allows retrying performs exactly `maxRetries + 1`
invocations and returns a `RetryExhaustedError` carrying the last
attempt's error and the complete per-attempt error list in attempt
order. -/
theorem C7_retry_exhaustion_error_history
    (c : Comp) (cap : RetryCap) (m : Nat) (errF : Nat → GoError)
    (hm : cap.retryConfig.maxRetries = (m : ℤ))
    (hexec : ∀ n, c.exec n = some (errF n))
    (hretry : ∀ e, cap.shouldRetry e = true) :
    (executeWithRetry c cap false).invocations = m + 1 ∧
    (executeWithRetry c cap false).result =
      some (.retryExhaustedError c.name cap.retryConfig.maxRetries
        (some (errF m)) ((List.range (m + 1)).map errF)) := by
  have htot : (cap.retryConfig.maxRetries + 1).toNat = m + 1 := by
    rw [hm]; omega
  simp only [executeWithRetry, htot]
  rw [retryGo_always_fail c cap errF hexec hretry (m + 1) 0 none []]
  refine ⟨rfl, ?_⟩
  have hlast : lastFailErr errF 0 none (m + 1) = some (errF m) := by
    rw [lastFailErr_succ errF m 0 none]
    simp
  have herrs : attemptErrs errF 0 (m + 1) = (List.range (m + 1)).map errF := by
    rw [attemptErrs_eq_range'_map, List.range_eq_range']
  simp [hlast, herrs]

/-- C7 witness: the fixture component exhausts its 2 retries with 3
invocations and the exact error history. -/
theorem C7_witness :
    (executeWithRetry failComp alwaysRetryCap false).invocations = 2 + 1 ∧
    (executeWithRetry failComp alwaysRetryCap false).result =
      some (.retryExhaustedError failComp.name alwaysRetryCap.retryConfig.maxRetries
        (some (.baseError "boom"))
        ((List.range (2 + 1)).map (fun _ => .baseError "boom"))) :=
  C7_retry_exhaustion_error_history failComp alwaysRetryCap 2
    (fun _ => .baseError "boom") rfl (fun _ => rfl) (fun _ => rfl)

/-- C2 witness: the claim instantiated at the always-failing fixture
component with maxRetries 2. -/
theorem C2_witness :
    (executeWithRetry failComp alwaysRetryCap false).invocations ≤ 1 + 2 ∧
    1 ≤ (executeWithRetry failComp alwaysRetryCap false).invocations ∧
    (executeWithRetry failComp alwaysRetryCap false).sleeps.length + 1 =
      (executeWithRetry failComp alwaysRetryCap false).invocations ∧
    (∀ k d, (executeWithRetry failComp alwaysRetryCap false).sleeps.get? k = some d →
      d = (alwaysRetryCap.retryConfig.delay : ℚ) *
        (alwaysRetryCap.retryConfig.backoff * (k : ℚ))) ∧
    (∀ d, (executeWithRetry failComp alwaysRetryCap false).sleeps.get? 0 = some d →
      d = 0) :=
  C2_retry_attempt_bound_and_linear_backoff failComp alwaysRetryCap 2 rfl

/-! ## Helper lemmas: per-component dispatch and serial execution -/

/-- Every error returned by `executeComponent` is a wrapper carrying the
component's name and the layer's name. -/
theorem executeComponent_err_fields (lc : LayerConfig) (c : Comp)
    (ctx : Bool) (e : GoError)
    (h : (executeComponent lc c ctx).result = some e) :
    e.componentField = some c.name ∧ e.layerField = some lc.name := by
  unfold executeComponent at h
  rcases hI : c.initResult with _ | r
  · rw [hI] at h
    dsimp only at h
    rcases ht : (match c.retryCap with
        | some cap => executeWithRetry c cap ctx
        | none => ⟨c.exec 0, 1, []⟩ : CompRunTrace).result with _ | err
    · rw [ht] at h; simp at h
    · rw [ht] at h
      dsimp only at h
      by_cases hc : isCriticalComponent lc c.name
      · rw [if_pos hc] at h
        simp only [Option.some.injEq] at h
        subst h
        exact ⟨rfl, rfl⟩
      · rw [if_neg hc] at h
        simp only [Option.some.injEq] at h
        subst h
        exact ⟨rfl, rfl⟩
  · rcases r with _ | e'
    · rw [hI] at h
      dsimp only at h
      rcases ht : (match c.retryCap with
          | some cap => executeWithRetry c cap ctx
          | none => ⟨c.exec 0, 1, []⟩ : CompRunTrace).result with _ | err
      · rw [ht] at h; simp at h
      · rw [ht] at h
        dsimp only at h
        by_cases hc : isCriticalComponent lc c.name
        · rw [if_pos hc] at h
          simp only [Option.some.injEq] at h
          subst h
          exact ⟨rfl, rfl⟩
        · rw [if_neg hc] at h
          simp only [Option.some.injEq] at h
          subst h
          exact ⟨rfl, rfl⟩
    · rw [hI] at h
      simp only [Option.some.injEq] at h
      subst h
      exact ⟨rfl, rfl⟩

/-- `executeSerial` on `pre ++ b :: post` where every component of `pre`
succeeds and `b` fails: the result is `b`'s error and exactly
`pre ++ [b]` were started. -/
theorem executeSerial_first_failure (lc : LayerConfig) (ctx : Bool) :
    ∀ (pre : List Comp) (b : Comp) (post : List Comp) (eb : GoError),
      (∀ a ∈ pre, (executeComponent lc a ctx).result = none) →
      (executeComponent lc b ctx).result = some eb →
      executeSerial lc ctx (pre ++ b :: post) =
        (some eb, pre.map Comp.name ++ [b.name]) := by
  intro pre
  induction pre with
  | nil =>
      intro b post eb _ hb
      simp [executeSerial, hb]
  | cons a rest ih =>
      intro b post eb hpre hb
      have ha : (executeComponent lc a ctx).result = none :=
        hpre a (List.mem_cons_self a rest)
      have htail := ih b post eb (fun x hx => hpre x (List.mem_cons_of_mem a hx)) hb
      simp [executeSerial, ha, htail]

/-- C6: in a serial-mode layer the components execute strictly in
declared order, the first failing component's wrapped error is returned
immediately, components after the first failure are never started, and
the returned error identifies the failing component and the layer. -/
theorem C6_serial_stops_at_first_failure (lc : LayerConfig) (ctx : Bool)
    (pre : List Comp) (b : Comp) (post : List Comp) (eb : GoError)
    (hpre : ∀ a ∈ pre, (executeComponent lc a ctx).result = none)
    (hb : (executeComponent lc b ctx).result = some eb) :
    executeSerial lc ctx (pre ++ b :: post) =
      (some eb, pre.map Comp.name ++ [b.name]) ∧
    eb.componentField = some b.name ∧ eb.layerField = some lc.name := by
  refine ⟨executeSerial_first_failure lc ctx pre b post eb hpre hb, ?_⟩
  exact executeComponent_err_fields lc b ctx eb hb

/-- C6 witness: in the serial layer `[A ok, B fails, C ok]`, C never
runs, only A and B are started, and the returned error identifies B and
the layer L. -/
theorem C6_witness :
    executeSerial serialLayerCfg false
        [mkComp "A" none, mkComp "B" (some (.baseError "bfail")), mkComp "C" none] =
      (some (.executionError "component_execution_failed"
          "component execution failed: bfail" "B" "L" (some (.baseError "bfail"))),
        ["A", "B"]) ∧
    (GoError.executionError "component_execution_failed"
        "component execution failed: bfail" "B" "L"
        (some (.baseError "bfail"))).componentField =
      some (mkComp "B" (some (.baseError "bfail"))).name ∧
    (GoError.executionError "component_execution_failed"
        "component execution failed: bfail" "B" "L"
        (some (.baseError "bfail"))).layerField = some serialLayerCfg.name := by
  have h := C6_serial_stops_at_first_failure serialLayerCfg false
    [mkComp "A" none] (mkComp "B" (some (.baseError "bfail"))) [mkComp "C" none]
    (.executionError "component_execution_failed"
      "component execution failed: bfail" "B" "L" (some (.baseError "bfail")))
    (by intro a ha
        simp only [List.mem_singleton] at ha
        subst ha
        rfl)
    rfl
  simpa using h

/-! ## Helper lemmas: the parallel drain -/

/-- Draining a queue with no critical error aggregates everything. -/
theorem drainLoop_no_critical (layerName : String) :
    ∀ (errs acc : List GoError), (∀ e ∈ errs, e.isCritical = false) →
      drainLoop layerName acc errs =
        (if (acc ++ errs).length > 0 then
          some (.executionError "parallel_execution_failed"
            ("parallel execution failed with " ++ toString (acc ++ errs).length ++
              " errors") "" layerName (acc ++ errs).head?)
        else none) := by
  intro errs
  induction errs with
  | nil =>
      intro acc _
      simp [drainLoop]
  | cons e rest ih =>
      intro acc h
      have he : e.isCritical = false := h e (List.mem_cons_self e rest)
      have hrest := ih (acc ++ [e]) (fun x hx => h x (List.mem_cons_of_mem e hx))
      simp only [drainLoop, he, Bool.false_eq_true, if_false]
      rw [hrest]
      simp [List.append_assoc]

/-- Draining a queue returns the first critical error collected. -/
theorem drainLoop_finds_critical (layerName : String) :
    ∀ (errs acc : List GoError) (crit : GoError),
      errs.find? (fun e => e.isCritical) = some crit →
      drainLoop layerName acc errs = some crit := by
  intro errs
  induction errs with
  | nil => intro acc crit h; simp at h
  | cons e rest ih =>
      intro acc crit h
      cases hc : e.isCritical with
      | true =>
          rw [List.find?_cons_of_pos _ hc] at h
          simp only [Option.some.injEq] at h
          subst h
          simp [drainLoop, hc]
      | false =>
          rw [List.find?_cons_of_neg _ (by simp [hc])] at h
          simp [drainLoop, hc, ih (acc ++ [e]) crit h]

/-- C3: for a parallel-mode layer over any arrival order of the
components' results: if the collected failures contain a critical
error, the first collected critical error is returned; if failures
occurred but none is critical, a single aggregate `ExecutionError`
reporting the error count, with the first collected error as cause, is
returned; and if no component fails, the layer returns nil. -/
theorem C3_parallel_critical_priority_and_aggregation
    (lc : LayerConfig) (ctx : Bool) (comps arrival : List Comp)
    (hperm : arrival.Perm comps) :
    (∀ crit,
      (arrival.filterMap (fun c => (executeComponent lc c ctx).result)).find?
          (fun e => e.isCritical) = some crit →
      executeParallel lc ctx arrival = some crit) ∧
    ((arrival.filterMap (fun c => (executeComponent lc c ctx).result)) ≠ [] →
      (arrival.filterMap (fun c => (executeComponent lc c ctx).result)).find?
          (fun e => e.isCritical) = none →
      executeParallel lc ctx arrival =
        some (.executionError "parallel_execution_failed"
          ("parallel execution failed with " ++
            toString (arrival.filterMap
              (fun c => (executeComponent lc c ctx).result)).length ++ " errors")
          "" lc.name
          (arrival.filterMap (fun c => (executeComponent lc c ctx).result)).head?)) ∧
    ((∀ c ∈ comps, (executeComponent lc c ctx).result = none) →
      executeParallel lc ctx arrival = none) := by
  refine ⟨?_, ?_, ?_⟩
  · intro crit h
    exact drainLoop_finds_critical lc.name _ [] crit h
  · intro hne hnone
    have hnc : ∀ e ∈ arrival.filterMap (fun c => (executeComponent lc c ctx).result),
        e.isCritical = false := by
      intro e he
      have := List.find?_eq_none.mp hnone e he
      simpa using this
    have hlen : (arrival.filterMap (fun c => (executeComponent lc c ctx).result)).length > 0 :=
      List.length_pos.mpr hne
    unfold executeParallel
    rw [drainLoop_no_critical lc.name _ [] hnc]
    rw [List.nil_append]
    rw [if_pos hlen]
  · intro hok
    have hnil : arrival.filterMap (fun c => (executeComponent lc c ctx).result) = [] := by
      rw [List.filterMap_eq_nil_iff]
      intro c hc
      exact hok c (hperm.mem_iff.mp hc)
    unfold executeParallel
    rw [hnil]
    simp [drainLoop]

/-- C3 witness: in a parallel layer where the non-critical failure
arrives before the critical one, the returned error is the critical
one. -/
theorem C3_witness :
    executeParallel parLayerCfg false
        [mkComp "nc" (some (.baseError "nboom")),
         mkComp "crit" (some (.baseError "cboom"))] =
      some (.criticalComponentError "crit" "P" (.baseError "cboom")) :=
  (C3_parallel_critical_priority_and_aggregation parLayerCfg false
      [mkComp "crit" (some (.baseError "cboom")),
       mkComp "nc" (some (.baseError "nboom"))]
      [mkComp "nc" (some (.baseError "nboom")),
       mkComp "crit" (some (.baseError "cboom"))]
      (List.Perm.swap _ _ _)).1
    (.criticalComponentError "crit" "P" (.baseError "cboom")) rfl

/-! ## Helper lemmas: the config Retry field is dead at run time -/

/-- `find?` by name commutes with a retry-field rewrite of the specs. -/
theorem find?_name_setRetry (f : Option RetryConfig → Option RetryConfig) :
    ∀ (l : List ComponentConfig) (n : String),
      (l.map (fun cc => { cc with retry := f cc.retry })).find?
          (fun cfg => cfg.name = n) =
        (l.find? (fun cfg => cfg.name = n)).map
          (fun cc => { cc with retry := f cc.retry }) := by
  intro l
  induction l with
  | nil => intro n; simp
  | cons c rest ih =>
      intro n
      by_cases hn : c.name = n
      · rw [List.map_cons,
          List.find?_cons_of_pos _ (by simpa using hn),
          List.find?_cons_of_pos _ (by simpa using hn)]
        rfl
      · rw [List.map_cons,
          List.find?_cons_of_neg _ (by simpa using hn),
          List.find?_cons_of_neg _ (by simpa using hn)]
        exact ih n

/-- The static critical flag is unaffected by the Retry fields. -/
theorem isCriticalComponent_setRetry (f : Option RetryConfig → Option RetryConfig)
    (lc : LayerConfig) (n : String) :
    isCriticalComponent (setRetryInConfigs f lc) n = isCriticalComponent lc n := by
  unfold isCriticalComponent setRetryInConfigs
  dsimp only
  rw [find?_name_setRetry]
  cases lc.components.find? (fun cfg => cfg.name = n) with
  | none => rfl
  | some cc => rfl

/-- C10: the `Retry` field of the parsed component configuration is
never read during execution: the dispatch outcome is invariant under
arbitrary rewriting of every spec's Retry field; a component without the
retry capability has its `Execute` invoked exactly once per dispatch
(when initialization does not fail first); and for a retry-capable
component the invocations and sleeps are exactly those of
`executeWithRetry` under the component's own `GetRetryConfig()`. -/
theorem C10_config_retry_field_never_read
    (lc : LayerConfig) (c : Comp) (ctx : Bool)
    (f : Option RetryConfig → Option RetryConfig) :
    executeComponent (setRetryInConfigs f lc) c ctx = executeComponent lc c ctx ∧
    (c.retryCap = none → (c.initResult = none ∨ c.initResult = some none) →
      (executeComponent lc c ctx).invocations = 1) ∧
    (∀ cap, c.retryCap = some cap →
      (c.initResult = none ∨ c.initResult = some none) →
      (executeComponent lc c ctx).invocations =
        (executeWithRetry c cap ctx).invocations ∧
      (executeComponent lc c ctx).sleeps = (executeWithRetry c cap ctx).sleeps) := by
  refine ⟨?_, ?_, ?_⟩
  · unfold executeComponent
    rw [isCriticalComponent_setRetry]
    rfl
  · intro hcap hinit
    unfold executeComponent
    rcases hinit with hinit | hinit <;> rw [hinit, hcap] <;> dsimp only <;>
      cases c.exec 0 with
      | none => rfl
      | some err =>
          dsimp only
          by_cases hc : isCriticalComponent lc c.name
          · rw [if_pos hc]
          · rw [if_neg hc]
  · intro cap hcap hinit
    unfold executeComponent
    rcases hinit with hinit | hinit <;> rw [hinit, hcap] <;> dsimp only <;>
      cases (executeWithRetry c cap ctx).result with
      | none => exact ⟨rfl, rfl⟩
      | some err =>
          dsimp only
          by_cases hc : isCriticalComponent lc c.name
          · rw [if_pos hc]; exact ⟨rfl, rfl⟩
          · rw [if_neg hc]; exact ⟨rfl, rfl⟩

/-- C10 witness: a non-retryable component is executed exactly once and
its dispatch outcome is unchanged when every spec's Retry field is
overwritten; a retry-capable component follows its own
`GetRetryConfig()`. -/
theorem C10_witness :
    executeComponent (setRetryInConfigs (fun _ => some ⟨9, 9, 9⟩) serialLayerCfg)
        (mkComp "A" none) false =
      executeComponent serialLayerCfg (mkComp "A" none) false ∧
    (executeComponent serialLayerCfg (mkComp "A" none) false).invocations = 1 ∧
    (executeComponent serialLayerCfg failComp false).invocations =
      (executeWithRetry failComp alwaysRetryCap false).invocations :=
  ⟨(C10_config_retry_field_never_read serialLayerCfg (mkComp "A" none) false
      (fun _ => some ⟨9, 9, 9⟩)).1,
   (C10_config_retry_field_never_read serialLayerCfg (mkComp "A" none) false
      (fun _ => some ⟨9, 9, 9⟩)).2.1 rfl (Or.inl rfl),
   ((C10_config_retry_field_never_read serialLayerCfg failComp false
      (fun _ => some ⟨9, 9, 9⟩)).2.2 alwaysRetryCap rfl (Or.inl rfl)).1⟩

/-! ## Helper lemmas: validation guarantees and setDefaults -/

/-- A component-loop pass guarantees non-empty component types. -/
theorem validateComponentsLoop_types (index : Nat) :
    ∀ (comps : List ComponentConfig) (seen : List String) (j : Nat),
      validateComponentsLoop index comps seen j = none →
      ∀ cc ∈ comps, cc.type ≠ "" := by
  intro comps
  induction comps with
  | nil => intro seen j _ cc hcc; simp at hcc
  | cons c rest ih =>
      intro seen j h cc hcc
      rw [validateComponentsLoop] at h
      split at h
      · simp at h
      · split at h
        · simp at h
        · split at h
          · simp at h
          · rcases List.mem_cons.mp hcc with hcc | hcc
            · subst hcc
              next h3 => exact h3
            · exact ih (c.name :: seen) (j + 1) h cc hcc

/-- A layer-config pass guarantees non-empty component types. -/
theorem validateLayerConfig_types (l : LayerConfig) (i : Nat)
    (h : validateLayerConfig l i = none) : ∀ cc ∈ l.components, cc.type ≠ "" := by
  rw [validateLayerConfig] at h
  split at h
  · split at h
    · simp at h
    · split at h
      · simp at h
      · exact validateComponentsLoop_types i l.components [] 0 h
  · split at h
    · simp at h
    · split at h
      · simp at h
      · exact validateComponentsLoop_types i l.components [] 0 h

/-- A layers-loop pass guarantees non-empty component types in every
layer. -/
theorem validateLayersLoop_types :
    ∀ (layers : List LayerConfig) (seen : List String) (i : Nat),
      validateLayersLoop layers seen i = none →
      ∀ l ∈ layers, ∀ cc ∈ l.components, cc.type ≠ "" := by
  intro layers
  induction layers with
  | nil => intro seen i _ l hl; simp at hl
  | cons l0 rest ih =>
      intro seen i h l hl
      rw [validateLayersLoop] at h
      split at h
      · simp at h
      · split at h
        · simp at h
        · split at h
          · simp at h
          · next heq =>
              rcases List.mem_cons.mp hl with hl | hl
              · subst hl
                exact validateLayerConfig_types l i heq
              · exact ih (l0.name :: seen) (i + 1) h l hl

/-- A full `validateConfig` pass guarantees non-empty component
types. -/
theorem validateConfig_types (c : Config) (h : validateConfig c = none) :
    ∀ l ∈ c.layers, ∀ cc ∈ l.components, cc.type ≠ "" := by
  rw [validateConfig] at h
  split at h
  · simp at h
  · next hs =>
      rw [validateConfigStructure] at hs
      split at hs
      · simp at hs
      · split at hs
        · simp at hs
        · exact validateLayersLoop_types c.layers [] 0 hs

/-- After the layer defaults, the mode is never empty and the layer is
enabled. -/
theorem setDefaultsLayer_enabled (l : LayerConfig) :
    (setDefaultsLayer l).enabled = true := by
  unfold setDefaultsLayer
  dsimp only
  split_ifs with h1 h2 h3 <;> simp_all [SerialMode]

/-- The defaults do not change which components a layer has, up to the
component defaults map. -/
theorem setDefaultsLayer_components (l : LayerConfig) :
    (setDefaultsLayer l).components = l.components.map setDefaultsComponent := by
  unfold setDefaultsLayer
  dsimp only
  split_ifs <;> rfl

/-- A component whose type is non-empty is enabled after defaults. -/
theorem setDefaultsComponent_enabled (cc : ComponentConfig) (ht : cc.type ≠ "") :
    (setDefaultsComponent cc).enabled = true := by
  unfold setDefaultsComponent
  dsimp only
  split_ifs with h1 h2 <;> simp_all

/-- `setDefaults` enables every layer, and every component whose type
is non-empty. -/
theorem setDefaults_all_enabled (c : Config)
    (htypes : ∀ l ∈ c.layers, ∀ cc ∈ l.components, cc.type ≠ "") :
    ∀ l ∈ (setDefaults c).layers, l.enabled = true ∧
      ∀ cc ∈ l.components, cc.enabled = true := by
  intro l hl
  have hlayers : (setDefaults c).layers = c.layers.map setDefaultsLayer := by
    unfold setDefaults
    split <;> rfl
  rw [hlayers] at hl
  obtain ⟨l0, hl0, rfl⟩ := List.mem_map.mp hl
  refine ⟨setDefaultsLayer_enabled l0, ?_⟩
  intro cc hcc
  rw [setDefaultsLayer_components] at hcc
  obtain ⟨cc0, hcc0, rfl⟩ := List.mem_map.mp hcc
  exact setDefaultsComponent_enabled cc0 (htypes l0 hl0 cc0 hcc0)

/-- C9: every `Config` returned by `ParseBytes` (and hence `Parse` /
`ParseFile`) has `Enabled = true` on every layer and every component —
including when the decoded document explicitly disabled them — because
`setDefaults` runs after a successful validation and unconditionally
re-enables disabled layers and (non-empty-typed) components. -/
theorem C9_parsed_configs_fully_enabled
    (fs : String → Option Config) (fuel : Nat) (st : ParserState) (cfg : Config)
    (out : Config) (st2 : ParserState)
    (h : parseBytesAux fs fuel st cfg = .ok (out, st2)) :
    ∀ l ∈ out.layers, l.enabled = true ∧
      ∀ cc ∈ l.components, cc.enabled = true := by
  unfold parseBytesAux at h
  repeat' (split at h)
  all_goals try simp at h
  all_goals
    rename_i hv
    obtain ⟨h1, h2⟩ := h
    rw [← h1]
    exact setDefaults_all_enabled _ (validateConfig_types _ hv)

/-- C9 witness: a one-layer config that explicitly disables its layer
and its component parses to a config whose layer and component are both
enabled. -/
theorem C9_witness :
    parseBytesAux (fun _ => none) 1 newParserState
        ⟨"w", "", "", [⟨"L1", "serial", [⟨"C1", "T", none, [], 0, none, false, false,
          false⟩], 0, [], false, 0, false⟩], none, 0, none, ""⟩ =
      .ok (⟨"w", "1.0.0", "",
        [⟨"L1", "serial", [⟨"C1", "T", none, [], defaultComponentTimeout, none, false,
          true, false⟩], 0, [], true, 0, false⟩], none, 0, none, ""⟩,
        newParserState) ∧
    ∀ l ∈ (⟨"w", "1.0.0", "",
        [⟨"L1", "serial", [⟨"C1", "T", none, [], defaultComponentTimeout, none, false,
          true, false⟩], 0, [], true, 0, false⟩], none, 0, none, ""⟩ : Config).layers,
      l.enabled = true ∧ ∀ cc ∈ l.components, cc.enabled = true := by
  constructor
  · rfl
  · exact C9_parsed_configs_fully_enabled (fun _ => none) 1 newParserState
      ⟨"w", "", "", [⟨"L1", "serial", [⟨"C1", "T", none, [], 0, none, false, false,
        false⟩], 0, [], false, 0, false⟩], none, 0, none, ""⟩ _ _ rfl

/-! ## Helper lemmas: layer dependency validation -/

/-- A dependency list passes `depsCheck` iff every dependency resolves
to a strictly smaller index. -/
theorem depsCheck_none_iff (idx : String → Option Nat) (i : Nat) :
    ∀ deps : List String, depsCheck idx i deps = none ↔
      ∀ dep ∈ deps, ∃ j, idx dep = some j ∧ j < i := by
  intro deps
  induction deps with
  | nil => simp [depsCheck]
  | cons dep rest ih =>
      constructor
      · intro h d hd
        rw [depsCheck] at h
        cases hd0 : idx dep with
        | none => rw [hd0] at h; simp at h
        | some j =>
            rw [hd0] at h
            dsimp only at h
            by_cases hj : j ≥ i
            · rw [if_pos hj] at h; simp at h
            · rw [if_neg hj] at h
              rcases List.mem_cons.mp hd with rfl | hd2
              · exact ⟨j, hd0, by omega⟩
              · exact (ih.mp h) d hd2
      · intro hall
        rw [depsCheck]
        obtain ⟨j, hj1, hj2⟩ := hall dep (List.mem_cons_self _ _)
        rw [hj1]
        dsimp only
        rw [if_neg (by omega)]
        exact ih.mpr (fun d hd => hall d (List.mem_cons_of_mem _ hd))

/-- `depsCheck` either passes or fails with a `ValidationError` on the
`layers[i].dependencies` field. -/
theorem depsCheck_shape (idx : String → Option Nat) (i : Nat) :
    ∀ deps : List String, depsCheck idx i deps = none ∨
      ∃ (dep msg : String), depsCheck idx i deps =
        some (.validationError ("layers[" ++ toString i ++ "].dependencies") dep msg) := by
  intro deps
  induction deps with
  | nil => exact Or.inl rfl
  | cons dep rest ih =>
      rw [depsCheck]
      cases hd0 : idx dep with
      | none => exact Or.inr ⟨dep, _, rfl⟩
      | some j =>
          dsimp only
          by_cases hj : j ≥ i
          · rw [if_pos hj]
            exact Or.inr ⟨dep, _, rfl⟩
          · rw [if_neg hj]
            exact ih

/-- The dependency loop passes iff the check passes at every layer
position. -/
theorem depsLoop_none_iff (idx : String → Option Nat) :
    ∀ (layers : List LayerConfig) (i0 : Nat),
      depsLoop idx layers i0 = none ↔
        ∀ k l, layers.get? k = some l →
          depsCheck idx (i0 + k) l.dependencies = none := by
  intro layers
  induction layers with
  | nil =>
      intro i0
      constructor
      · intro _ k l hk; simp at hk
      · intro _; rfl
  | cons l0 rest ih =>
      intro i0
      rw [depsLoop]
      cases hc : depsCheck idx i0 l0.dependencies with
      | some e =>
          constructor
          · intro h; simp at h
          · intro hall
            have h0 := hall 0 l0 rfl
            rw [Nat.add_zero, hc] at h0
            simp at h0
      | none =>
          rw [ih (i0 + 1)]
          constructor
          · intro h k l hk
            cases k with
            | zero =>
                simp only [List.get?] at hk
                injection hk with hk
                subst hk
                rw [Nat.add_zero]
                exact hc
            | succ k2 =>
                have := h k2 l hk
                have harith : i0 + 1 + k2 = i0 + (k2 + 1) := by omega
                rw [harith] at this
                exact this
          · intro hall k l hk
            have := hall (k + 1) l hk
            have harith : i0 + (k + 1) = i0 + 1 + k := by omega
            rw [harith] at this
            exact this

/-- The dependency loop either passes or fails with a `ValidationError`
on some `layers[i].dependencies` field. -/
theorem depsLoop_shape (idx : String → Option Nat) :
    ∀ (layers : List LayerConfig) (i0 : Nat),
      depsLoop idx layers i0 = none ∨
        ∃ (i : Nat) (dep msg : String), depsLoop idx layers i0 =
          some (.validationError ("layers[" ++ toString i ++ "].dependencies")
            dep msg) := by
  intro layers
  induction layers with
  | nil => intro i0; exact Or.inl rfl
  | cons l0 rest ih =>
      intro i0
      rw [depsLoop]
      cases hc : depsCheck idx i0 l0.dependencies with
      | some e =>
          rcases depsCheck_shape idx i0 l0.dependencies with hn | ⟨dep, msg, hs⟩
          · rw [hn] at hc; simp at hc
          · rw [hs] at hc
            injection hc with hc
            exact Or.inr ⟨i0, dep, msg, by rw [← hc]⟩
      | none => exact ih (i0 + 1)

/-- C4: given that the structural checks pass, `validateConfig`
succeeds iff every layer dependency names an existing layer (in the
last-index-wins layer map) at a strictly smaller index than the
referencing layer; and whenever some dependency is missing from the map
or resolves at or after the referencing layer, `validateConfig` fails
with a `ValidationError` on that layer's `dependencies` field. -/
theorem C4_dependency_validation (c : Config)
    (hs : validateConfigStructure c = none) :
    (validateConfig c = none ↔
      ∀ k l, c.layers.get? k = some l → ∀ dep ∈ l.dependencies,
        ∃ j, lastLayerIdxOf c.layers dep = some j ∧ j < k) ∧
    ((∃ k l, c.layers.get? k = some l ∧ ∃ dep ∈ l.dependencies,
        (lastLayerIdxOf c.layers dep = none ∨
          ∃ j, lastLayerIdxOf c.layers dep = some j ∧ k ≤ j)) →
      ∃ (i : Nat) (dep msg : String), validateConfig c =
        some (.validationError ("layers[" ++ toString i ++ "].dependencies")
          dep msg)) := by
  have hv : validateConfig c = validateLayerDependencies c.layers := by
    rw [validateConfig, hs]
  have hiff : validateConfig c = none ↔
      ∀ k l, c.layers.get? k = some l → ∀ dep ∈ l.dependencies,
        ∃ j, lastLayerIdxOf c.layers dep = some j ∧ j < k := by
    rw [hv, validateLayerDependencies, depsLoop_none_iff]
    constructor
    · intro h k l hk dep hdep
      have := (depsCheck_none_iff _ _ _).mp (h k l hk) dep hdep
      simpa using this
    · intro h k l hk
      rw [depsCheck_none_iff]
      intro dep hdep
      have := h k l hk dep hdep
      simpa using this
  refine ⟨hiff, ?_⟩
  intro ⟨k, l, hk, dep, hdep, hbad⟩
  have hne : validateConfig c ≠ none := by
    intro hnone
    obtain ⟨j, hj1, hj2⟩ := hiff.mp hnone k l hk dep hdep
    rcases hbad with hbad | ⟨j2, hj3, hj4⟩
    · rw [hbad] at hj1; simp at hj1
    · rw [hj3] at hj1
      injection hj1 with hj1
      omega
  rcases depsLoop_shape (lastLayerIdxOf c.layers) c.layers 0 with hn | ⟨i, d, m, hsh⟩
  · rw [hv, validateLayerDependencies] at hne
    exact absurd hn hne
  · rw [hv, validateLayerDependencies, hsh]
    exact ⟨i, d, m, rfl⟩

/-- C4 witness: a config whose second layer depends on the first
validates; a config whose second layer depends on itself fails with a
`ValidationError` on `layers[1].dependencies`. -/
theorem C4_witness :
    validateConfig cGood = none ∧
    (∃ (i : Nat) (dep msg : String), validateConfig cBad =
      some (.validationError ("layers[" ++ toString i ++ "].dependencies")
        dep msg)) := by
  constructor
  · refine (C4_dependency_validation cGood rfl).1.mpr ?_
    intro k l hk dep hdep
    match k, hk with
    | 0, hk =>
        injection hk with hk
        subst hk
        simp at hdep
    | 1, hk =>
        injection hk with hk
        subst hk
        simp only [List.mem_singleton] at hdep
        subst hdep
        exact ⟨0, rfl, by omega⟩
    | n + 2, hk => simp [cGood] at hk
  · refine (C4_dependency_validation cBad rfl).2 ?_
    refine ⟨1, ⟨"L2", "serial", [ccOf "C2"], 0, ["L2"], true, 0, false⟩, rfl,
      "L2", ?_, Or.inr ⟨1, rfl, by omega⟩⟩
    simp

/-! ## Merge determinism and non-mutation -/

/-- C5: `mergeConfigs` is deterministic and non-mutating: the merge run
leaves the parent unchanged (in the source every assignment targets the
clone `base`, never the parent), and a second merge of the same parent
(as left by the first run) against the same child yields a structurally
identical result.  The hypothesis restricts to parents with an empty
`extends` reference, the only shape the clone model covers (and the
only shape reachable from parsing). -/
theorem C5_merge_deterministic_and_nonmutating
    (p c : Config) (_hp : p.extendsRef = "") :
    (mergeRun p c).2 = p ∧
    (mergeRun ((mergeRun p c).2) c).1 = (mergeRun p c).1 ∧
    (∀ p2 c2, p2 = p → c2 = c → mergeConfigs p2 c2 = mergeConfigs p c) := by
  refine ⟨rfl, rfl, ?_⟩
  intro p2 c2 hp2 hc2
  rw [hp2, hc2]

/-- C5 witness: merging the fixture parent against the fixture child
twice gives identical results and leaves the parent unchanged. -/
theorem C5_witness :
    (mergeRun cGood cBad).2 = cGood ∧
    (mergeRun ((mergeRun cGood cBad).2) cBad).1 = (mergeRun cGood cBad).1 ∧
    (∀ p2 c2, p2 = cGood → c2 = cBad → mergeConfigs p2 c2 = mergeConfigs cGood cBad) :=
  C5_merge_deterministic_and_nonmutating cGood cBad rfl

/-! ## The extends visited set persists across top-level parses -/

/-- A successful parse only grows the parser's visited set. -/
theorem parseBytesAux_visited_mono (fs : String → Option Config) :
    ∀ (fuel : Nat) (st : ParserState) (cfg : Config) (out : Config)
      (st2 : ParserState),
      parseBytesAux fs fuel st cfg = .ok (out, st2) →
      ∀ x, st.visited.contains x = true → st2.visited.contains x = true := by
  intro fuel
  induction fuel with
  | zero =>
      intro st cfg out st2 h x hx
      unfold parseBytesAux at h
      split at h
      · split at h
        · simp at h
        · simp at h
      · split at h
        · simp at h
        · simp only [Except.ok.injEq, Prod.mk.injEq] at h
          rw [← h.2]
          exact hx
  | succ n ih =>
      intro st cfg out st2 h x hx
      unfold parseBytesAux at h
      split at h
      · split at h
        · simp at h
        · dsimp only at h
          split at h
          · simp at h
          · split at h
            · simp at h
            · next parent st' hparse =>
                split at h
                · simp at h
                · split at h
                  · simp at h
                  · simp only [Except.ok.injEq, Prod.mk.injEq] at h
                    rw [← h.2]
                    refine ih _ _ _ _ hparse x ?_
                    have hmem : x ∈ st.visited := by simpa using hx
                    simp [List.contains_cons, hmem]
      · split at h
        · simp at h
        · simp only [Except.ok.injEq, Prod.mk.injEq] at h
          rw [← h.2]
          exact hx

/-- C8 corrected: the `visitedExtends` set is created once in
`NewConfigParser` and never reset, so it persists across top-level
parse invocations on the same parser instance: a reference already in
the set fails immediately with an `extends_cycle_detected` error, and a
successful parse of a config extending `P` leaves `P` in the returned
parser state — so a second independent child extending `P` on the same
parser is rejected as a false-positive cycle. -/
theorem C8_visited_set_persists
    (fs : String → Option Config) (fuel : Nat) (st : ParserState) (cfg : Config)
    (hext : cfg.extendsRef ≠ "") :
    (st.visited.contains cfg.extendsRef = true →
      parseBytesAux fs fuel st cfg =
        .error (.configError "extends_cycle_detected"
          ("circular extends detected: " ++ cfg.extendsRef) "")) ∧
    (∀ out st2, parseBytesAux fs fuel st cfg = .ok (out, st2) →
      st2.visited.contains cfg.extendsRef = true) := by
  constructor
  · intro hvis
    unfold parseBytesAux
    rw [if_pos hext, if_pos hvis]
  · intro out st2 h
    unfold parseBytesAux at h
    rw [if_pos hext] at h
    split at h
    · simp at h
    · split at h
      · simp at h
      · split at h
        · simp at h
        · split at h
          · simp at h
          · next parent st' hparse =>
              split at h
              · simp at h
              · split at h
                · simp at h
                · simp only [Except.ok.injEq, Prod.mk.injEq] at h
                  rw [← h.2]
                  refine parseBytesAux_visited_mono fs _ _ _ _ _ hparse
                    cfg.extendsRef ?_
                  simp [List.contains_cons]

/-- C8 counterexample: on one parser instance, the first top-level
parse of child `c1` (extending parent `p`) succeeds and leaves `p` in
the visited set; the second top-level parse of the independent child
`c2` (also extending `p`) then fails with a false-positive
`extends_cycle_detected` error — refuting the claim that the visited
set is scoped per top-level invocation. -/
theorem C8_counterexample :
    (∃ out, parseFileAux fsDemo 2 newParserState "c1" =
      .ok (out, (⟨["p"]⟩ : ParserState))) ∧
    parseFileAux fsDemo 2 (⟨["p"]⟩ : ParserState) "c2" =
      .error (.configError "extends_cycle_detected"
        "circular extends detected: p" "") := by
  exact ⟨⟨_, rfl⟩, rfl⟩

/-- C8 witness: the amended claim instantiated at the fixture: with `p`
already visited, parsing `childA` fails with the cycle error, and the
state returned by the first successful parse of `childA` contains `p`. -/
theorem C8_witness :
    parseBytesAux fsDemo 2 (⟨["p"]⟩ : ParserState) childA =
      .error (.configError "extends_cycle_detected"
        "circular extends detected: p" "") ∧
    (⟨["p"]⟩ : ParserState).visited.contains childA.extendsRef = true := by
  constructor
  · exact (C8_visited_set_persists fsDemo 2 ⟨["p"]⟩ childA (by decide)).1 rfl
  · exact (C8_visited_set_persists fsDemo 2 newParserState childA (by decide)).2
      _ ⟨["p"]⟩ rfl

/-! ## The engine layer loop after a non-critical failure -/

/-- C1 (code divergence, evaluated at the failing input): in
`Engine.Execute` the `executionError` variable is never reset and
`layer.Execute` runs only under `if executionError == nil`, so after a
non-critical failure in layer L1 the later layer L2 is iterated (a
stats entry is created) but never dispatched — its components do not
execute — while the failure is still recorded in the stats and as the
terminal error.  The claim (and the spec) say every later layer is
still dispatched. -/
theorem C1_nonCritical_failure_skips_later_layers :
    (engineExecute [layerM1, layerM2] false).dispatched = ["L1"] ∧
    (engineExecute [layerM1, layerM2] false).error =
      some (.executionError "component_execution_failed"
        "component execution failed: xboom" "X" "L1" (some (.baseError "xboom"))) ∧
    (engineExecute [layerM1, layerM2] false).layerStats =
      [⟨"L1", 1, false, some (.executionError "component_execution_failed"
          "component execution failed: xboom" "X" "L1" (some (.baseError "xboom")))⟩,
        ⟨"L2", 1, false, none⟩] ∧
    (engineExecute [layerM1, layerM2] false).layersFailed = 1 ∧
    (engineExecute [layerM1, layerM2] false).layersSuccess = 0 :=
  ⟨rfl, rfl, rfl, rfl, rfl⟩

end KFlow
